import Mathlib

/-!
Shallow embedding of the lark-vm CPU core (`src/cpu.rs`, `src/cpu/*.rs`).

Machine words are modelled as `Nat` bit patterns (`u16` values `< 2 ^ 16`,
`u8` values `< 2 ^ 8`); signed views reinterpret the two's-complement
pattern as an `Int`.  Fallible operations return `Option`: `none` models a
Rust panic (an `expect`/`unimplemented!`-style abort or an out-of-bounds
slice index, and for plain non-wrapping integer arithmetic the overflow
check that Rust performs when debug assertions are on).  Log messages sent
to the supervisor channel are omitted; the `Halt`, `Breakpoint` and
`IllegalInstr` signals are recorded in an ordered list.
-/

namespace Lark

/-- The constant `KIB` from `src/cpu.rs`. -/
def KIB : Nat := 1024

/-- The constant `VTTY_COLS` from `src/cpu.rs`. -/
def VTTY_COLS : Nat := 80

/-- The constant `VTTY_ROWS` from `src/cpu.rs`. -/
def VTTY_ROWS : Nat := 24

/-- The constant `VTTY_BYTES` from `src/cpu.rs`. -/
def VTTY_BYTES : Nat := VTTY_COLS * VTTY_ROWS

/-- The constant `ROM_SIZE` from `src/cpu.rs`. -/
def ROM_SIZE : Nat := 4 * KIB

/-- The constant `USER_MEM_SIZE` from `src/cpu.rs`. -/
def USER_MEM_SIZE : Nat := 54 * KIB

/-- The constant `KERNEL_MEM_SIZE` from `src/cpu.rs`. -/
def KERNEL_MEM_SIZE : Nat := 4 * KIB

/-- The constant `Mmio::SIZE` from `src/cpu.rs`. -/
def MMIO_SIZE : Nat := 2 * KIB

/-- The constant `Memory::MMIO_START` from `src/cpu.rs`. -/
def MMIO_START : Nat := 0

/-- The constant `Memory::MMIO_END` from `src/cpu.rs`. -/
def MMIO_END : Nat := MMIO_START + MMIO_SIZE - 1

/-- The constant `Memory::ROM_START` from `src/cpu.rs`. -/
def ROM_START : Nat := MMIO_SIZE

/-- The constant `Memory::ROM_END` from `src/cpu.rs`. -/
def ROM_END : Nat := ROM_START + ROM_SIZE - 1

/-- The constant `Memory::USER_START` from `src/cpu.rs`. -/
def USER_START : Nat := ROM_START + ROM_SIZE

/-- The constant `Memory::USER_END` from `src/cpu.rs`. -/
def USER_END : Nat := USER_START + USER_MEM_SIZE - 1

/-- The constant `Memory::KERNEL_START` from `src/cpu.rs`. -/
def KERNEL_START : Nat := USER_START + USER_MEM_SIZE

/-- The constant `VTTY_START` from `src/cpu.rs`. -/
def VTTY_START : Nat := 128

/-- The constant `VTTY_END` from `src/cpu.rs`. -/
def VTTY_END : Nat := VTTY_START + VTTY_BYTES - 1

/-- The constant `STACK_INIT` from `src/cpu.rs`. -/
def STACK_INIT : Nat := USER_END - 1

/-- Reinterpretation of a 16-bit pattern as a signed value: `s16::as_i16`
from `src/utils.rs` (two's complement). -/
def asI16 (x : Nat) : Int :=
  if x % 65536 < 32768 then (x % 65536 : Nat) else ((x % 65536 : Nat) : Int) - 65536

/-- Conversion of a signed value to its 16-bit two's-complement pattern:
the `From<i16> for s16` impl in `src/utils.rs`, and Rust's `as u16` cast
in `src/cpu/dex.rs`. -/
def toU16 (i : Int) : Nat := (i % 65536).toNat

/-- Reinterpretation of an 8-bit pattern as a signed value: the
`transmute::<u8, i8>` in the `SEB` arm of `src/cpu/dex.rs`. -/
def asI8 (x : Nat) : Int :=
  if x % 256 < 128 then (x % 256 : Nat) else ((x % 256 : Nat) : Int) - 256

/-- The register names of `Reg` in `src/cpu/regs.rs`. -/
inductive Reg where
  | Zero | Rv | Ra | A0 | A1 | A2 | S0 | S1 | S2 | T0 | T1 | T2 | K0 | K1 | Gp | Sp
deriving DecidableEq, Repr

/-- The numeric register codes (`repr(u8)` discriminants of `Reg` in
`src/cpu/regs.rs`). -/
def Reg.code : Reg → Nat
  | .Zero => 0 | .Rv => 1 | .Ra => 2 | .A0 => 3 | .A1 => 4 | .A2 => 5
  | .S0 => 6 | .S1 => 7 | .S2 => 8 | .T0 => 9 | .T1 => 10 | .T2 => 11
  | .K0 => 12 | .K1 => 13 | .Gp => 14 | .Sp => 15

/-- The `RegisterFile` of `src/cpu/regs.rs`: fifteen stored slots, the
zero register is not backed by storage. -/
structure RegisterFile where
  indexed : Nat → Nat

/-- `RegisterFile::reg_offset`: `None` for the zero register, otherwise
the slot index `code - 1` (Rust's `checked_sub(1)`). -/
def RegisterFile.regOffset (r : Reg) : Option Nat :=
  if r.code = 0 then none else some (r.code - 1)

/-- `RegisterFile::get`: 0 for the zero register, otherwise the stored
16-bit pattern. -/
def RegisterFile.get (rf : RegisterFile) (r : Reg) : Nat :=
  match RegisterFile.regOffset r with
  | none => 0
  | some i => rf.indexed i

/-- Signed (`get::<i16>`) view of a register. -/
def RegisterFile.getI (rf : RegisterFile) (r : Reg) : Int := asI16 (rf.get r)

/-- Boolean (`get::<bool>`) view of a register: nonzero means true. -/
def RegisterFile.getB (rf : RegisterFile) (r : Reg) : Bool := rf.get r != 0

/-- `RegisterFile::set`: writes to the zero register are discarded; other
writes store the 16-bit pattern of the value (the `Into<s16>` conversion). -/
def RegisterFile.set (rf : RegisterFile) (r : Reg) (v : Nat) : RegisterFile :=
  match RegisterFile.regOffset r with
  | none => rf
  | some i => ⟨fun j => if j = i then v % 65536 else rf.indexed j⟩

/-- `RegisterFile::reset`: all slots zero, then `sp` set to `start_sp`. -/
def RegisterFile.reset (_rf : RegisterFile) (startSp : Nat) : RegisterFile :=
  RegisterFile.set ⟨fun _ => 0⟩ .Sp startSp

/-- `RegisterFile::new`. -/
def RegisterFile.new (startSp : Nat) : RegisterFile :=
  RegisterFile.reset ⟨fun _ => 0⟩ startSp

/-- `MemBlock<N>` from `src/cpu.rs`: a byte array of length `n`, modelled
as a function; accesses are bounds-checked (an out-of-range index panics
in Rust, modelled by `none`). -/
structure MemBlock (n : Nat) where
  mem : Nat → Nat

/-- `MemBlock::new_zeroed`. -/
def MemBlock.newZeroed (n : Nat) : MemBlock n := ⟨fun _ => 0⟩

/-- `MemBlock::read_u8` (`self.mem[addr]`). -/
def MemBlock.readU8 {n : Nat} (b : MemBlock n) (addr : Nat) : Option Nat :=
  if addr < n then some (b.mem addr) else none

/-- `MemBlock::write_u8` (`self.mem[addr] = value`). -/
def MemBlock.writeU8 {n : Nat} (b : MemBlock n) (addr v : Nat) : Option (MemBlock n) :=
  if addr < n then some ⟨fun j => if j = addr then v else b.mem j⟩ else none

/-- `MemBlock::read_s16`: big-endian, `lo = mem[addr+1]`, `hi = mem[addr]`,
result `(hi << 8) | lo`. -/
def MemBlock.readS16 {n : Nat} (b : MemBlock n) (addr : Nat) : Option Nat :=
  if addr + 1 < n then some ((b.mem addr <<< 8) ||| b.mem (addr + 1)) else none

/-- `MemBlock::write_s16`: big-endian, writes `lo = value & 0xFF` at
`addr + 1` first, then `hi = value >> 8` at `addr`. -/
def MemBlock.writeS16 {n : Nat} (b : MemBlock n) (addr v : Nat) : Option (MemBlock n) :=
  (b.writeU8 (addr + 1) (v &&& 255)).bind fun b2 => b2.writeU8 addr (v >>> 8)

/-- The `Mmio` device table of `src/cpu.rs`; only the VTTY framebuffer is
backed by storage. -/
structure Mmio where
  vttyBuf : MemBlock VTTY_BYTES

/-- `Mmio::read_u8`: VTTY addresses read the framebuffer (offset shifted
by `VTTY_START`); every other address is an unimplemented-MMIO panic. -/
def Mmio.readU8 (m : Mmio) (addr : Nat) : Option Nat :=
  if VTTY_START ≤ addr ∧ addr ≤ VTTY_END then m.vttyBuf.readU8 (addr - VTTY_START)
  else none

/-- `Mmio::write_u8`: address 1 swallows the write; VTTY addresses write
the framebuffer; every other address is an unimplemented-MMIO panic. -/
def Mmio.writeU8 (m : Mmio) (addr v : Nat) : Option Mmio :=
  if addr = 1 then some m
  else if VTTY_START ≤ addr ∧ addr ≤ VTTY_END then
    (m.vttyBuf.writeU8 (addr - VTTY_START) v).map fun b => ⟨b⟩
  else none

/-- `Mmio::read_s16` is unimplemented for every address. -/
def Mmio.readS16 (_m : Mmio) (_addr : Nat) : Option Nat := none

/-- `Mmio::write_s16`: address 1 swallows the write; VTTY addresses store
the low byte at the target offset and the high byte at offset + 1
(device-local little-endian); every other address panics. -/
def Mmio.writeS16 (m : Mmio) (addr v : Nat) : Option Mmio :=
  if addr = 1 then some m
  else if VTTY_START ≤ addr ∧ addr ≤ VTTY_END then
    (m.vttyBuf.writeU8 (addr - VTTY_START) (v &&& 255)).bind fun b =>
      (b.writeU8 (addr - VTTY_START + 1) (v >>> 8)).map fun b2 => ⟨b2⟩
  else none

/-- The segmented `Memory` of `src/cpu.rs`. -/
structure Memory where
  mmio : Mmio
  rom : MemBlock ROM_SIZE
  user : MemBlock USER_MEM_SIZE
  kernel : MemBlock KERNEL_MEM_SIZE

/-- `Memory::new`: the given ROM image, zeroed user and kernel blocks,
the given (shared) VTTY buffer. -/
def Memory.new (rom : MemBlock ROM_SIZE) (vtty : MemBlock VTTY_BYTES) : Memory :=
  ⟨⟨vtty⟩, rom, MemBlock.newZeroed _, MemBlock.newZeroed _⟩

/-- `Memory::compute_offset`: sign-extended offset added to the base; the
result must fit in 16 bits, otherwise the `expect("no overflow")` panics. -/
def computeOffset (base : Nat) (off : Int) : Option Nat :=
  if 0 ≤ (base : Int) + off ∧ (base : Int) + off < 65536 then
    some ((base : Int) + off).toNat
  else none

/-- `Memory::read_u8` with the `effective_addr` segment dispatch. -/
def Memory.readU8 (m : Memory) (addr : Nat) : Option Nat :=
  if addr ≤ MMIO_END then m.mmio.readU8 addr
  else if addr ≤ ROM_END then m.rom.readU8 (addr - ROM_START)
  else if addr ≤ USER_END then m.user.readU8 (addr - USER_START)
  else m.kernel.readU8 (addr - KERNEL_START)

/-- `Memory::write_u8` with the `effective_addr_mut` segment dispatch
(note: the ROM arm hands the ROM block out mutably, exactly as the
source does). -/
def Memory.writeU8 (m : Memory) (addr v : Nat) : Option Memory :=
  if addr ≤ MMIO_END then (m.mmio.writeU8 addr v).map fun d => { m with mmio := d }
  else if addr ≤ ROM_END then (m.rom.writeU8 (addr - ROM_START) v).map fun b => { m with rom := b }
  else if addr ≤ USER_END then (m.user.writeU8 (addr - USER_START) v).map fun b => { m with user := b }
  else (m.kernel.writeU8 (addr - KERNEL_START) v).map fun b => { m with kernel := b }

/-- `Memory::read_s16` with the segment dispatch. -/
def Memory.readS16 (m : Memory) (addr : Nat) : Option Nat :=
  if addr ≤ MMIO_END then m.mmio.readS16 addr
  else if addr ≤ ROM_END then m.rom.readS16 (addr - ROM_START)
  else if addr ≤ USER_END then m.user.readS16 (addr - USER_START)
  else m.kernel.readS16 (addr - KERNEL_START)

/-- `Memory::write_s16` with the segment dispatch. -/
def Memory.writeS16 (m : Memory) (addr v : Nat) : Option Memory :=
  if addr ≤ MMIO_END then (m.mmio.writeS16 addr v).map fun d => { m with mmio := d }
  else if addr ≤ ROM_END then (m.rom.writeS16 (addr - ROM_START) v).map fun b => { m with rom := b }
  else if addr ≤ USER_END then (m.user.writeS16 (addr - USER_START) v).map fun b => { m with user := b }
  else (m.kernel.writeS16 (addr - KERNEL_START) v).map fun b => { m with kernel := b }

/-- `Memory::reset`: ROM, user and kernel blocks are zeroed; MMIO is left
alone. -/
def Memory.reset (m : Memory) : Memory :=
  { m with rom := MemBlock.newZeroed _, user := MemBlock.newZeroed _,
           kernel := MemBlock.newZeroed _ }

/-- The `OpcodeOp` enumeration (no-argument instructions) of
`src/cpu/instr.rs`. -/
inductive OpcodeOp where
  | HALT | NOP | KRET | INRE | INRD
deriving DecidableEq, Repr

/-- The `OpcodeAddr` enumeration of `src/cpu/instr.rs`. -/
inductive OpcodeAddr where
  | J
deriving DecidableEq, Repr

/-- The `OpcodeImm` enumeration of `src/cpu/instr.rs`. -/
inductive OpcodeImm where
  | EXN | KCALL
deriving DecidableEq, Repr

/-- The `OpcodeReg` enumeration of `src/cpu/instr.rs`. -/
inductive OpcodeReg where
  | JR | MVLO | MVHI
deriving DecidableEq, Repr

/-- The `OpcodeRegImm` enumeration of `src/cpu/instr.rs`. -/
inductive OpcodeRegImm where
  | JAL | BT | BF | LI
deriving DecidableEq, Repr

/-- The `OpcodeRegReg` enumeration of `src/cpu/instr.rs`. -/
inductive OpcodeRegReg where
  | JRAL | MV | MUL | DIV | NOT | NEG | MULU | DIVU | SEB | TEZ | TNZ
deriving DecidableEq, Repr

/-- The `OpcodeRegRegReg` enumeration of `src/cpu/instr.rs`. -/
inductive OpcodeRegRegReg where
  | ADD | SUB | OR | XOR | AND | ADDU | SUBU | SHL | SHR | SHRA
  | TLT | TGE | TEQ | TNE | TLTU | TGEU
deriving DecidableEq, Repr

/-- The `OpcodeRegRegImm` enumeration of `src/cpu/instr.rs`. -/
inductive OpcodeRegRegImm where
  | LW | LBS | LBU | SW | SB | ADDI | SUBI | ORI | XORI | ANDI
deriving DecidableEq, Repr

/-- The decoded `Instr` of `src/cpu/instr.rs` (with `R = Reg`,
`Imm = s16`); immediates carry the 16-bit pattern produced by the
(sign-extending) field load of the decoder. -/
inductive Instr where
  | O (opcode : OpcodeOp)
  | A (opcode : OpcodeAddr) (offset : Nat)
  | I (opcode : OpcodeImm) (imm10 : Nat)
  | R (opcode : OpcodeReg) (reg : Reg)
  | RI (opcode : OpcodeRegImm) (reg : Reg) (imm : Nat)
  | RR (opcode : OpcodeRegReg) (reg1 reg2 : Reg)
  | RRR (opcode : OpcodeRegRegReg) (reg1 reg2 reg3 : Reg)
  | RRI (opcode : OpcodeRegRegImm) (reg1 reg2 : Reg) (imm10 : Nat)
deriving Repr

/-- The constant `OPCODE_BITS` of `src/cpu/decode.rs`. -/
def OPCODE_BITS : Nat := 6

/-- The constant `REG_BITS` of `src/cpu/decode.rs`. -/
def REG_BITS : Nat := 4

/-- The constant `ADDR_BITS` of `src/cpu/decode.rs`. -/
def ADDR_BITS : Nat := 16

/-- The constant `IMM10_BITS` of `src/cpu/decode.rs`. -/
def IMM10_BITS : Nat := 10

/-- The constant `IMM16_BITS` of `src/cpu/decode.rs`. -/
def IMM16_BITS : Nat := 16

/-- The `ceil_div` helper of `src/cpu/decode.rs`. -/
def ceilDiv (a b : Nat) : Nat := (a + b - 1) / b

/-- The free function `instr_size` of `src/cpu/decode.rs`: byte size of an
instruction with the given number of argument bits. -/
def instrSizeBits (argBits : Nat) : Nat := ceilDiv (OPCODE_BITS + argBits) 8

/-- `Instr::instr_size` of `src/cpu/decode.rs`: size in bytes per shape. -/
def Instr.instrSize : Instr → Nat
  | .O _ => instrSizeBits 0
  | .A _ _ => instrSizeBits ADDR_BITS
  | .I _ _ => instrSizeBits IMM10_BITS
  | .R _ _ => instrSizeBits REG_BITS
  | .RI _ _ _ => instrSizeBits (REG_BITS + IMM16_BITS)
  | .RR _ _ _ => instrSizeBits (2 * REG_BITS)
  | .RRR _ _ _ _ => instrSizeBits (3 * REG_BITS)
  | .RRI _ _ _ _ => instrSizeBits (2 * REG_BITS + IMM10_BITS)

/-- Signals sent to the supervisor (`Signal` in `src/cpu.rs`); `Log`
payloads are presentational and omitted here. -/
inductive Sig where
  | halt | breakpoint | illegalInstr
deriving DecidableEq, Repr

/-- The interrupt sources of `src/cpu/interrupts.rs`. -/
inductive Interrupt where
  | ILL_INSTR | DIV_ZERO | KEY_EVENT | TIMER_EXP
deriving DecidableEq, Repr

/-- The vector-table address of each interrupt (`repr(u16)` discriminants
in `src/cpu/interrupts.rs`). -/
def Interrupt.addr : Interrupt → Nat
  | .ILL_INSTR => 0xFFFE
  | .DIV_ZERO => 0xFFFC
  | .KEY_EVENT => 0xFFFA
  | .TIMER_EXP => 0xFFF8

/-- The `Cpu` state of `src/cpu.rs` (fields used by execution; the
debugger breakpoint set, channels and source path are omitted). -/
structure Cpu where
  regs : RegisterFile
  pc : Nat
  ir : Nat
  hi : Nat
  lo : Nat
  mem : Memory
  interruptReturnAddress : Nat
  interruptsEnabled : Bool
  inDebugMode : Bool
  sigs : List Sig

/-- `Cpu::new`. -/
def Cpu.new (rom : MemBlock ROM_SIZE) (vtty : MemBlock VTTY_BYTES) : Cpu :=
  { regs := RegisterFile.new STACK_INIT, pc := ROM_START, ir := 0, hi := 0, lo := 0,
    mem := Memory.new rom vtty, interruptReturnAddress := 0, interruptsEnabled := true,
    inDebugMode := false, sigs := [] }

/-- `Cpu::reset`. -/
def Cpu.reset (c : Cpu) : Cpu :=
  { c with regs := c.regs.reset STACK_INIT, pc := ROM_START, ir := 0, hi := 0, lo := 0,
           inDebugMode := false, interruptReturnAddress := 0, interruptsEnabled := true,
           mem := c.mem.reset }

/-- `Cpu::mem_read_s16`: offset computation then a word read. -/
def Cpu.memReadS16 (c : Cpu) (base : Nat) (off : Int) : Option Nat :=
  (computeOffset base off).bind fun a => c.mem.readS16 a

/-- `Cpu::mem_read_u8`. -/
def Cpu.memReadU8 (c : Cpu) (base : Nat) (off : Int) : Option Nat :=
  (computeOffset base off).bind fun a => c.mem.readU8 a

/-- `Cpu::mem_write_s16`. -/
def Cpu.memWriteS16 (c : Cpu) (base : Nat) (off : Int) (v : Nat) : Option Cpu :=
  (computeOffset base off).bind fun a => (c.mem.writeS16 a v).map fun m => { c with mem := m }

/-- `Cpu::mem_write_u8`. -/
def Cpu.memWriteU8 (c : Cpu) (base : Nat) (off : Int) (v : Nat) : Option Cpu :=
  (computeOffset base off).bind fun a => (c.mem.writeU8 a v).map fun m => { c with mem := m }

/-- `Cpu::send_interrupt` of `src/cpu/interrupts.rs`: disable interrupts,
save the current `pc` into `K0`, then jump to the handler address read
from the vector table. -/
def sendInterrupt (c : Cpu) (i : Interrupt) : Option Cpu :=
  let c1 := { c with interruptsEnabled := false, regs := c.regs.set .K0 c.pc }
  (c1.mem.readS16 i.addr).map fun handler => { c1 with pc := handler }

/-- `Cpu::handle_exn` of `src/cpu/exn_codes.rs`: signal for codes 0 and 1,
`todo!()` for `DIV_BY_ZERO`, a byte-by-byte read for `DEBUG_PUTS`
(panicking reads abort), and `unimplemented!()` for every other code. -/
def Cpu.handleExn (c : Cpu) (code : Nat) : Option Cpu :=
  if code = 0 then some { c with sigs := c.sigs ++ [.illegalInstr] }
  else if code = 1 then some { c with sigs := c.sigs ++ [.breakpoint] }
  else if code = 2 then none
  else if code = 3 then
    if (List.range (c.regs.get .A1)).all
        (fun i => (c.memReadU8 (c.regs.get .A0) (asI16 i)).isSome)
    then some c else none
  else none

/-- Outcome of `Cpu::decode_and_execute`: a normal return (`Ok(())` with
the updated state), an error return (`Err(DexErr)`), or a Rust panic. -/
inductive ExecResult where
  | ok (c : Cpu)
  | err
  | panic

/-- State update followed by the `self.pc += n` advance (a plain `u16`
add, which panics on overflow). -/
def pcPlus (c : Cpu) (n : Nat) : ExecResult :=
  if c.pc + n < 65536 then .ok { c with pc := c.pc + n } else .panic

/-- The execute half of `Cpu::decode_and_execute` in `src/cpu/dex.rs`,
arm by arm over the decoded instruction.  `unimplemented!()` and
`todo!()` arms are panics. -/
def execInstr (c : Cpu) (instr : Instr) : ExecResult :=
  let size := instr.instrSize
  match instr with
  | .O op =>
    match op with
    | .HALT => .ok { c with sigs := c.sigs ++ [.halt] }
    | .NOP => pcPlus c 1
    | .KRET => .ok { c with interruptsEnabled := true, pc := c.regs.get .K0 }
    | .INRE => pcPlus { c with interruptsEnabled := true } 1
    | .INRD => pcPlus { c with interruptsEnabled := false } 1
  | .A op offset =>
    match op with
    | .J => .ok { c with pc := toU16 ((c.pc : Int) + asI16 offset) }
  | .I op imm10 =>
    match op with
    | .EXN =>
      match c.handleExn imm10 with
      | some c2 => pcPlus c2 size
      | none => .panic
    | .KCALL => .panic
  | .R op reg =>
    match op with
    | .JR => .ok { c with pc := c.regs.get reg }
    | .MVLO => pcPlus { c with regs := c.regs.set reg c.lo } size
    | .MVHI => pcPlus { c with regs := c.regs.set reg c.hi } size
  | .RI op reg imm =>
    match op with
    | .JAL =>
      if c.pc + size < 65536 then
        .ok { c with regs := c.regs.set reg (c.pc + size),
                     pc := toU16 ((c.pc : Int) + asI16 imm) }
      else .panic
    | .BT =>
      if c.regs.getB reg then .ok { c with pc := toU16 ((c.pc : Int) + asI16 imm) }
      else pcPlus c size
    | .BF =>
      if !c.regs.getB reg then .ok { c with pc := toU16 ((c.pc : Int) + asI16 imm) }
      else pcPlus c size
    | .LI => pcPlus { c with regs := c.regs.set reg (toU16 (asI16 imm)) } size
  | .RR op reg1 reg2 =>
    match op with
    | .JRAL =>
      if c.pc + size < 65536 then
        .ok { c with regs := c.regs.set reg1 (c.pc + size), pc := c.regs.get reg2 }
      else .panic
    | .MV => pcPlus { c with regs := c.regs.set reg1 (c.regs.get reg2) } size
    | .MUL =>
      let p32 : Nat := ((c.regs.getI reg1 * c.regs.getI reg2) % 4294967296).toNat
      pcPlus { c with lo := p32 % 65536, hi := p32 / 65536 % 65536 } size
    | .MULU =>
      let p32 : Nat := c.regs.get reg1 * c.regs.get reg2
      pcPlus { c with lo := p32 % 65536, hi := p32 / 65536 % 65536 } size
    | .DIV => .panic
    | .DIVU => .panic
    | .NOT =>
      pcPlus { c with regs := c.regs.set reg1 (if c.regs.getB reg2 then 0 else 1) } size
    | .NEG =>
      if c.regs.getI reg2 = -32768 then .panic
      else pcPlus { c with regs := c.regs.set reg1 (toU16 (-(c.regs.getI reg2))) } size
    | .SEB =>
      pcPlus { c with regs := c.regs.set reg1 (toU16 (asI8 (c.regs.get reg2 &&& 255))) } size
    | .TEZ =>
      pcPlus { c with regs := c.regs.set reg1 (if c.regs.get reg2 = 0 then 1 else 0) } size
    | .TNZ =>
      pcPlus { c with regs := c.regs.set reg1 (if c.regs.get reg2 ≠ 0 then 1 else 0) } size
  | .RRR op rd rs rt =>
    match op with
    | .ADD => pcPlus { c with regs := c.regs.set rd (toU16 (c.regs.getI rs + c.regs.getI rt)) } size
    | .ADDU => pcPlus { c with regs := c.regs.set rd ((c.regs.get rs + c.regs.get rt) % 65536) } size
    | .SUB => pcPlus { c with regs := c.regs.set rd (toU16 (c.regs.getI rs - c.regs.getI rt)) } size
    | .SUBU => pcPlus { c with regs := c.regs.set rd (toU16 ((c.regs.get rs : Int) - (c.regs.get rt : Int))) } size
    | .OR => .panic
    | .XOR => .panic
    | .AND => .panic
    | .SHL =>
      if c.regs.get rt < 16 then
        pcPlus { c with regs := c.regs.set rd ((c.regs.get rs <<< c.regs.get rt) % 65536) } size
      else .panic
    | .SHR =>
      if c.regs.get rt < 16 then
        pcPlus { c with regs := c.regs.set rd (c.regs.get rs >>> c.regs.get rt) } size
      else .panic
    | .SHRA =>
      if c.regs.get rt < 16 then
        pcPlus { c with regs := (c.regs.set rd
          (toU16 (Int.fdiv (c.regs.getI rs) (2 ^ c.regs.get rt)))) } size
      else .panic
    | .TLT => pcPlus { c with regs := c.regs.set rd (if c.regs.getI rs < c.regs.getI rt then 1 else 0) } size
    | .TLTU => pcPlus { c with regs := c.regs.set rd (if c.regs.get rs < c.regs.get rt then 1 else 0) } size
    | .TGE => pcPlus { c with regs := c.regs.set rd (if c.regs.getI rt ≤ c.regs.getI rs then 1 else 0) } size
    | .TGEU => pcPlus { c with regs := c.regs.set rd (if c.regs.get rt ≤ c.regs.get rs then 1 else 0) } size
    | .TEQ => pcPlus { c with regs := c.regs.set rd (if c.regs.getI rs = c.regs.getI rt then 1 else 0) } size
    | .TNE => pcPlus { c with regs := c.regs.set rd (if c.regs.get rs ≠ c.regs.get rt then 1 else 0) } size
  | .RRI op reg1 reg2 imm10 =>
    match op with
    | .LW =>
      match c.memReadS16 (c.regs.get reg2) (asI16 imm10) with
      | some v => pcPlus { c with regs := c.regs.set reg1 v } size
      | none => .panic
    | .LBS => .panic
    | .LBU =>
      match c.memReadU8 (c.regs.get reg2) (asI16 imm10) with
      | some v => pcPlus { c with regs := c.regs.set reg1 v } size
      | none => .panic
    | .SW =>
      match c.memWriteS16 (c.regs.get reg1) (asI16 imm10) (c.regs.get reg2) with
      | some c2 => pcPlus c2 size
      | none => .panic
    | .SB =>
      match c.memWriteU8 (c.regs.get reg1) (asI16 imm10) (c.regs.get reg2 &&& 255) with
      | some c2 => pcPlus c2 size
      | none => .panic
    | .ADDI => pcPlus { c with regs := c.regs.set reg1 (toU16 (c.regs.getI reg2 + asI16 imm10)) } size
    | .SUBI => pcPlus { c with regs := c.regs.set reg1 (toU16 (c.regs.getI reg2 - asI16 imm10)) } size
    | .ORI => .panic
    | .XORI => .panic
    | .ANDI => .panic

/-! Concrete fixtures: a freshly constructed machine with a zeroed ROM
image and a zeroed VTTY buffer, as built by `Cpu::new`. -/

/-- A zeroed VTTY buffer. -/
def vtty0 : MemBlock VTTY_BYTES := MemBlock.newZeroed _

/-- A freshly constructed memory with zeroed ROM image. -/
def memory0 : Memory := Memory.new (MemBlock.newZeroed _) vtty0

/-- A freshly constructed CPU with zeroed ROM image. -/
def cpu0 : Cpu := Cpu.new (MemBlock.newZeroed _) vtty0

/-! Shared numeric facts about the memory-map constants. -/

theorem MMIO_END_eq : MMIO_END = 2047 := rfl

theorem ROM_START_eq : ROM_START = 2048 := rfl

theorem ROM_END_eq : ROM_END = 6143 := rfl

theorem USER_START_eq : USER_START = 6144 := rfl

theorem USER_END_eq : USER_END = 61439 := rfl

theorem KERNEL_START_eq : KERNEL_START = 61440 := rfl

theorem VTTY_START_eq : VTTY_START = 128 := rfl

theorem VTTY_END_eq : VTTY_END = 2047 := rfl

theorem VTTY_BYTES_eq : VTTY_BYTES = 1920 := rfl

theorem ROM_SIZE_eq : ROM_SIZE = 4096 := rfl

theorem USER_MEM_SIZE_eq : USER_MEM_SIZE = 55296 := rfl

theorem KERNEL_MEM_SIZE_eq : KERNEL_MEM_SIZE = 4096 := rfl

/-! Shared bit-pattern lemmas for the big-endian byte pair. -/

theorem land255_eq_mod (w : Nat) : w &&& 255 = w % 256 := by
  have h := Nat.and_pow_two_sub_one_eq_mod w 8
  norm_num at h
  exact h

theorem shiftRight8_lt (w : Nat) (hw : w < 65536) : w >>> 8 < 256 := by
  rw [Nat.shiftRight_eq_div_pow]
  omega

theorem be_bytes_round_trip (w : Nat) : ((w >>> 8) <<< 8) ||| (w &&& 255) = w := by
  rw [land255_eq_mod, Nat.shiftLeft_eq, Nat.shiftRight_eq_div_pow]
  have hlt : w % 256 < 2 ^ 8 := by omega
  calc w / 2 ^ 8 * 2 ^ 8 ||| w % 256
      = 2 ^ 8 * (w / 2 ^ 8) ||| w % 256 := by rw [Nat.mul_comm]
    _ = 2 ^ 8 * (w / 2 ^ 8) + w % 256 := (Nat.mul_add_lt_is_or hlt _).symm
    _ = w := by omega

/-! Shared `MemBlock` access lemmas. -/

theorem MemBlock.writeS16_spec {n : Nat} (b : MemBlock n) (a v : Nat) (h : a + 1 < n) :
    b.writeS16 a v =
      some ⟨fun j => if j = a then v >>> 8 else if j = a + 1 then v &&& 255 else b.mem j⟩ := by
  unfold MemBlock.writeS16 MemBlock.writeU8
  rw [if_pos h]
  simp only [Option.some_bind]
  rw [if_pos (show a < n by omega)]

theorem MemBlock.word_round_trip {n : Nat} (b : MemBlock n) (a v : Nat)
    (h : a + 1 < n) (hv : v < 65536) :
    (b.writeS16 a v).bind (fun b2 => b2.readS16 a) = some v ∧
    (b.writeS16 a v).bind (fun b2 => b2.readU8 a) = some ((v >>> 8) &&& 255) ∧
    (b.writeS16 a v).bind (fun b2 => b2.readU8 (a + 1)) = some (v &&& 255) := by
  rw [MemBlock.writeS16_spec b a v h]
  have hhi : (v >>> 8) &&& 255 = v >>> 8 := by
    rw [land255_eq_mod]
    exact Nat.mod_eq_of_lt (shiftRight8_lt v hv)
  have hne : a + 1 ≠ a := by omega
  refine ⟨?_, ?_, ?_⟩
  · unfold MemBlock.readS16
    simp only [Option.some_bind]
    rw [if_pos h]
    simp [hne]
    exact be_bytes_round_trip v
  · unfold MemBlock.readU8
    simp only [Option.some_bind]
    rw [if_pos (show a < n by omega)]
    simp [hhi]
  · unfold MemBlock.readU8
    simp only [Option.some_bind]
    rw [if_pos h]
    simp [hne]

theorem MemBlock.byte_round_trip {n : Nat} (b : MemBlock n) (a v : Nat) (h : a < n) :
    (b.writeU8 a v).bind (fun b2 => b2.readU8 a) = some v := by
  unfold MemBlock.writeU8 MemBlock.readU8
  rw [if_pos h]
  simp only [Option.some_bind]
  rw [if_pos h]
  simp

/-! Claim theorems. -/

/-- Invariant checked on the outcome of a step: in every normal outcome
the zero register reads as 0. -/
def zeroRegInvariant : ExecResult → Prop
  | .ok c2 => c2.regs.get .Zero = 0
  | _ => True

/-- C4: reads of register zero always yield 0, writes to register zero
leave the register file unchanged, and after every execution step
register zero still reads as 0. -/
theorem zero_register_hardwired :
    (∀ rf : RegisterFile, rf.get .Zero = 0) ∧
    (∀ (rf : RegisterFile) (v : Nat), rf.set .Zero v = rf) ∧
    (∀ (c : Cpu) (i : Instr), zeroRegInvariant (execInstr c i)) := by
  refine ⟨fun rf => rfl, fun rf v => rfl, fun c i => ?_⟩
  cases execInstr c i with
  | ok c2 => exact rfl
  | err => exact trivial
  | panic => exact trivial

/-- C2: the `DIV` and `DIVU` arms of `decode_and_execute` are
`unimplemented!()` — executing either panics for every pair of register
operands instead of writing a quotient to Lo and a remainder to Hi. -/
theorem div_divu_panic (c : Cpu) (rs rt : Reg) :
    execInstr c (.RR .DIV rs rt) = .panic ∧ execInstr c (.RR .DIVU rs rt) = .panic :=
  ⟨rfl, rfl⟩

/-- C9: `Cpu::reset` zeroes the ROM, user and kernel blocks and leaves
the MMIO-backed VTTY framebuffer (every byte of it) unchanged; the PC
returns to `ROM_START`. -/
theorem reset_clears_ram_preserves_vtty (c : Cpu) :
    (c.reset).mem.rom = MemBlock.newZeroed ROM_SIZE ∧
    (c.reset).mem.user = MemBlock.newZeroed USER_MEM_SIZE ∧
    (c.reset).mem.kernel = MemBlock.newZeroed KERNEL_MEM_SIZE ∧
    (c.reset).mem.mmio = c.mem.mmio ∧
    (∀ a : Nat, (c.reset).mem.mmio.vttyBuf.mem a = c.mem.mmio.vttyBuf.mem a) ∧
    (c.reset).pc = ROM_START :=
  ⟨rfl, rfl, rfl, rfl, fun _ => rfl, rfl⟩

/-- Projection of the ROM byte at offset 0 out of a step outcome. -/
def romByte0 : ExecResult → Option Nat
  | .ok c2 => some (c2.mem.rom.mem 0)
  | _ => none

/-- CPU poised to execute `sb 0($t0), $t1` with `$t0 = ROM_START` and
`$t1 = 171`. -/
def cpuC5 : Cpu := { cpu0 with regs := (cpu0.regs.set .T0 ROM_START).set .T1 171 }

/-- C5: writes into the ROM address range are not discarded —
`effective_addr_mut` hands the ROM block out mutably, so `write_u8` at
`ROM_START` changes the ROM byte at offset 0, and an executed `SB` store
does the same. -/
theorem rom_mutated_by_writes :
    (∀ (m : Memory) (v : Nat),
      (m.writeU8 ROM_START v).map (fun m2 => m2.rom.mem 0) = some v) ∧
    (memory0.writeU8 ROM_START 171).map (fun m2 => m2.rom.mem 0) = some 171 ∧
    memory0.rom.mem 0 = 0 ∧
    romByte0 (execInstr cpuC5 (.RRI .SB .T0 .T1 0)) = some 171 ∧
    cpuC5.mem.rom.mem 0 = 0 := by
  refine ⟨?_, rfl, rfl, rfl, rfl⟩
  intro m v
  unfold Memory.writeU8
  rw [if_neg (by decide), if_pos (by decide)]
  unfold MemBlock.writeU8
  rw [if_pos (by decide)]
  simp

theorem MemBlock.word_round_trip_ex {n : Nat} (b : MemBlock n) (a v : Nat)
    (h : a + 1 < n) (hv : v < 65536) :
    ∃ b2, b.writeS16 a v = some b2 ∧ b2.readS16 a = some v ∧
      b2.readU8 a = some ((v >>> 8) &&& 255) ∧ b2.readU8 (a + 1) = some (v &&& 255) := by
  obtain ⟨r1, r2, r3⟩ := MemBlock.word_round_trip b a v h hv
  cases hw : b.writeS16 a v with
  | none => rw [hw] at r1; simp at r1
  | some b2 =>
    rw [hw] at r1 r2 r3
    simp only [Option.some_bind] at r1 r2 r3
    exact ⟨b2, rfl, r1, r2, r3⟩

theorem MemBlock.byte_round_trip_ex {n : Nat} (b : MemBlock n) (a v : Nat) (h : a < n) :
    ∃ b2, b.writeU8 a v = some b2 ∧ b2.readU8 a = some v := by
  have r := MemBlock.byte_round_trip b a v h
  cases hw : b.writeU8 a v with
  | none => rw [hw] at r; simp at r
  | some b2 =>
    rw [hw] at r
    simp only [Option.some_bind] at r
    exact ⟨b2, rfl, r⟩

/-! Segment-dispatch lemmas: accesses in the user and kernel ranges
forward to the corresponding block with the segment base subtracted. -/

theorem Memory.readU8_user (m : Memory) (a : Nat) (h1 : 6144 ≤ a) (h2 : a ≤ 61439) :
    m.readU8 a = m.user.readU8 (a - USER_START) := by
  unfold Memory.readU8
  rw [if_neg (by rw [MMIO_END_eq]; omega), if_neg (by rw [ROM_END_eq]; omega),
    if_pos (by rw [USER_END_eq]; omega)]

theorem Memory.readS16_user (m : Memory) (a : Nat) (h1 : 6144 ≤ a) (h2 : a ≤ 61439) :
    m.readS16 a = m.user.readS16 (a - USER_START) := by
  unfold Memory.readS16
  rw [if_neg (by rw [MMIO_END_eq]; omega), if_neg (by rw [ROM_END_eq]; omega),
    if_pos (by rw [USER_END_eq]; omega)]

theorem Memory.writeU8_user (m : Memory) (a v : Nat) (h1 : 6144 ≤ a) (h2 : a ≤ 61439) :
    m.writeU8 a v = (m.user.writeU8 (a - USER_START) v).map fun u => { m with user := u } := by
  unfold Memory.writeU8
  rw [if_neg (by rw [MMIO_END_eq]; omega), if_neg (by rw [ROM_END_eq]; omega),
    if_pos (by rw [USER_END_eq]; omega)]

theorem Memory.writeS16_user (m : Memory) (a v : Nat) (h1 : 6144 ≤ a) (h2 : a ≤ 61439) :
    m.writeS16 a v = (m.user.writeS16 (a - USER_START) v).map fun u => { m with user := u } := by
  unfold Memory.writeS16
  rw [if_neg (by rw [MMIO_END_eq]; omega), if_neg (by rw [ROM_END_eq]; omega),
    if_pos (by rw [USER_END_eq]; omega)]

theorem Memory.readU8_kernel (m : Memory) (a : Nat) (h1 : 61440 ≤ a) :
    m.readU8 a = m.kernel.readU8 (a - KERNEL_START) := by
  unfold Memory.readU8
  rw [if_neg (by rw [MMIO_END_eq]; omega), if_neg (by rw [ROM_END_eq]; omega),
    if_neg (by rw [USER_END_eq]; omega)]

theorem Memory.readS16_kernel (m : Memory) (a : Nat) (h1 : 61440 ≤ a) :
    m.readS16 a = m.kernel.readS16 (a - KERNEL_START) := by
  unfold Memory.readS16
  rw [if_neg (by rw [MMIO_END_eq]; omega), if_neg (by rw [ROM_END_eq]; omega),
    if_neg (by rw [USER_END_eq]; omega)]

theorem Memory.writeU8_kernel (m : Memory) (a v : Nat) (h1 : 61440 ≤ a) :
    m.writeU8 a v = (m.kernel.writeU8 (a - KERNEL_START) v).map fun u => { m with kernel := u } := by
  unfold Memory.writeU8
  rw [if_neg (by rw [MMIO_END_eq]; omega), if_neg (by rw [ROM_END_eq]; omega),
    if_neg (by rw [USER_END_eq]; omega)]

theorem Memory.writeS16_kernel (m : Memory) (a v : Nat) (h1 : 61440 ≤ a) :
    m.writeS16 a v = (m.kernel.writeS16 (a - KERNEL_START) v).map fun u => { m with kernel := u } := by
  unfold Memory.writeS16
  rw [if_neg (by rw [MMIO_END_eq]; omega), if_neg (by rw [ROM_END_eq]; omega),
    if_neg (by rw [USER_END_eq]; omega)]

/-- C3 counterexample: `a = 61439 = USER_END` lies in user RAM and
`a + 1 = 61440 = KERNEL_START` lies in kernel RAM, so both lie in
"user RAM or kernel RAM", yet `write_word(a, w)` does not round-trip: the
whole word is dispatched to the user block, whose final byte is at offset
`USER_MEM_SIZE - 1`, and the write of the low byte at offset
`USER_MEM_SIZE` is an out-of-bounds panic. -/
theorem word_round_trip_fails_at_segment_boundary :
    (USER_START ≤ 61439 ∧ 61439 ≤ USER_END) ∧
    (KERNEL_START ≤ 61440 ∧ 61440 ≤ 65535) ∧
    Memory.writeS16 memory0 61439 4660 = none :=
  ⟨by decide, by decide, rfl⟩

/-- C3 (amended): for every address `a` such that `a` and `a + 1` lie in
the same writable RAM segment (both in user RAM, or both in kernel RAM),
`write_word(a, w)` then `read_word(a)` yields `w`, `read_u8(a)` yields
the high byte `(w >> 8) & 0xFF`, `read_u8(a + 1)` yields the low byte
`w & 0xFF` (big-endian), and the byte-level `write_u8`/`read_u8`
round-trip returns the written byte. -/
theorem word_write_read_round_trip (m : Memory) (a w b : Nat)
    (hw : w < 65536) (hb : b < 256)
    (hrange : (USER_START ≤ a ∧ a + 1 ≤ USER_END) ∨
      (KERNEL_START ≤ a ∧ a + 1 ≤ 65535)) :
    ((m.writeS16 a w).bind fun m2 => m2.readS16 a) = some w ∧
    ((m.writeS16 a w).bind fun m2 => m2.readU8 a) = some ((w >>> 8) &&& 255) ∧
    ((m.writeS16 a w).bind fun m2 => m2.readU8 (a + 1)) = some (w &&& 255) ∧
    ((m.writeU8 a b).bind fun m2 => m2.readU8 a) = some b := by
  rcases hrange with ⟨h1, h2⟩ | ⟨h1, h2⟩
  · have h1' : 6144 ≤ a := USER_START_eq ▸ h1
    have h2' : a + 1 ≤ 61439 := USER_END_eq ▸ h2
    have hlt : a - USER_START + 1 < USER_MEM_SIZE := by
      rw [USER_MEM_SIZE_eq, USER_START_eq]; omega
    have hsub : a + 1 - USER_START = a - USER_START + 1 := by
      rw [USER_START_eq]; omega
    obtain ⟨u2, hw2, hr1, hr2, hr3⟩ := MemBlock.word_round_trip_ex m.user (a - USER_START) w hlt hw
    obtain ⟨u3, hw3, hr4⟩ := MemBlock.byte_round_trip_ex m.user (a - USER_START) b (by omega)
    refine ⟨?_, ?_, ?_, ?_⟩
    · rw [Memory.writeS16_user m a w h1' (by omega), hw2]
      simp only [Option.map_some', Option.some_bind]
      rw [Memory.readS16_user _ a h1' (by omega)]
      exact hr1
    · rw [Memory.writeS16_user m a w h1' (by omega), hw2]
      simp only [Option.map_some', Option.some_bind]
      rw [Memory.readU8_user _ a h1' (by omega)]
      exact hr2
    · rw [Memory.writeS16_user m a w h1' (by omega), hw2]
      simp only [Option.map_some', Option.some_bind]
      rw [Memory.readU8_user _ (a + 1) (by omega) (by omega), hsub]
      exact hr3
    · rw [Memory.writeU8_user m a b h1' (by omega), hw3]
      simp only [Option.map_some', Option.some_bind]
      rw [Memory.readU8_user _ a h1' (by omega)]
      exact hr4
  · have h1' : 61440 ≤ a := KERNEL_START_eq ▸ h1
    have hlt : a - KERNEL_START + 1 < KERNEL_MEM_SIZE := by
      rw [KERNEL_MEM_SIZE_eq, KERNEL_START_eq]; omega
    have hsub : a + 1 - KERNEL_START = a - KERNEL_START + 1 := by
      rw [KERNEL_START_eq]; omega
    obtain ⟨u2, hw2, hr1, hr2, hr3⟩ :=
      MemBlock.word_round_trip_ex m.kernel (a - KERNEL_START) w hlt hw
    obtain ⟨u3, hw3, hr4⟩ := MemBlock.byte_round_trip_ex m.kernel (a - KERNEL_START) b (by omega)
    refine ⟨?_, ?_, ?_, ?_⟩
    · rw [Memory.writeS16_kernel m a w h1', hw2]
      simp only [Option.map_some', Option.some_bind]
      rw [Memory.readS16_kernel _ a h1']
      exact hr1
    · rw [Memory.writeS16_kernel m a w h1', hw2]
      simp only [Option.map_some', Option.some_bind]
      rw [Memory.readU8_kernel _ a h1']
      exact hr2
    · rw [Memory.writeS16_kernel m a w h1', hw2]
      simp only [Option.map_some', Option.some_bind]
      rw [Memory.readU8_kernel _ (a + 1) (by omega), hsub]
      exact hr3
    · rw [Memory.writeU8_kernel m a b h1', hw3]
      simp only [Option.map_some', Option.some_bind]
      rw [Memory.readU8_kernel _ a h1']
      exact hr4

/-! C8: VTTY little-endian 16-bit writes. -/

/-- Little-endian byte-pair write as performed by `Mmio::write_s16`:
low byte at the block offset, high byte at offset + 1. -/
theorem MemBlock.le_pair_write_ex {n : Nat} (b : MemBlock n) (a v : Nat) (h : a + 1 < n) :
    ∃ b1 b2, b.writeU8 a (v &&& 255) = some b1 ∧
      b1.writeU8 (a + 1) (v >>> 8) = some b2 ∧
      b2.readU8 a = some (v &&& 255) ∧ b2.readU8 (a + 1) = some (v >>> 8) := by
  refine ⟨⟨fun j => if j = a then v &&& 255 else b.mem j⟩,
    ⟨fun j => if j = a + 1 then v >>> 8 else if j = a then v &&& 255 else b.mem j⟩,
    ?_, ?_, ?_, ?_⟩
  · unfold MemBlock.writeU8
    rw [if_pos (show a < n by omega)]
  · unfold MemBlock.writeU8
    rw [if_pos h]
  · unfold MemBlock.readU8
    rw [if_pos (show a < n by omega)]
    simp [show a ≠ a + 1 by omega]
  · unfold MemBlock.readU8
    rw [if_pos h]
    simp

/-- The VTTY arm of `Mmio::write_s16`. -/
theorem Mmio.writeS16_vtty (d : Mmio) (a v : Nat) (h1 : 128 ≤ a) (h2 : a ≤ 2047) :
    d.writeS16 a v =
      (d.vttyBuf.writeU8 (a - VTTY_START) (v &&& 255)).bind fun b =>
        (b.writeU8 (a - VTTY_START + 1) (v >>> 8)).map fun b2 => ⟨b2⟩ := by
  unfold Mmio.writeS16
  rw [if_neg (by omega), if_pos (by rw [VTTY_START_eq, VTTY_END_eq]; omega)]

/-- The VTTY arm of `Mmio::read_u8`. -/
theorem Mmio.readU8_vtty (d : Mmio) (a : Nat) (h1 : 128 ≤ a) (h2 : a ≤ 2047) :
    d.readU8 a = d.vttyBuf.readU8 (a - VTTY_START) := by
  unfold Mmio.readU8
  rw [if_pos (by rw [VTTY_START_eq, VTTY_END_eq]; omega)]

/-- MMIO-range dispatch of `Memory::write_s16`. -/
theorem Memory.writeS16_mmio (m : Memory) (a v : Nat) (h : a ≤ 2047) :
    m.writeS16 a v = (m.mmio.writeS16 a v).map fun d => { m with mmio := d } := by
  unfold Memory.writeS16
  rw [if_pos (by rw [MMIO_END_eq]; omega)]

/-- MMIO-range dispatch of `Memory::read_u8`. -/
theorem Memory.readU8_mmio (m : Memory) (a : Nat) (h : a ≤ 2047) :
    m.readU8 a = m.mmio.readU8 a := by
  unfold Memory.readU8
  rw [if_pos (by rw [MMIO_END_eq]; omega)]

/-- C8 counterexample: `N = 2047 = VTTY_END` lies in the VTTY range, yet
a 16-bit MMIO write to it does not store a byte pair: the high byte would
land at framebuffer offset 1920, one past the end of the 1920-byte
buffer, and the write panics. -/
theorem vtty_word_write_fails_at_last_byte :
    (VTTY_START ≤ 2047 ∧ 2047 ≤ VTTY_END) ∧
    Memory.writeS16 memory0 2047 4660 = none :=
  ⟨by decide, rfl⟩

set_option maxRecDepth 4000 in
/-- C8 (amended): for every VTTY address `N` with `N + 1` also in the
VTTY range, a 16-bit MMIO write of `w` to `N` stores the low byte
`w & 0xFF` at `N` and the high byte `(w >> 8) & 0xFF` at `N + 1`
(little-endian device order), the opposite byte order from a 16-bit
write to main memory (shown at a user-RAM address `a`), which stores the
high byte first. -/
theorem vtty_word_write_little_endian (m : Memory) (N w a : Nat)
    (h1 : VTTY_START ≤ N) (h2 : N < VTTY_END) (hw : w < 65536)
    (ha1 : USER_START ≤ a) (ha2 : a + 1 ≤ USER_END) :
    ((m.writeS16 N w).bind fun m2 => m2.readU8 N) = some (w &&& 255) ∧
    ((m.writeS16 N w).bind fun m2 => m2.readU8 (N + 1)) = some ((w >>> 8) &&& 255) ∧
    ((m.writeS16 a w).bind fun m2 => m2.readU8 a) = some ((w >>> 8) &&& 255) ∧
    ((m.writeS16 a w).bind fun m2 => m2.readU8 (a + 1)) = some (w &&& 255) := by
  have h1' : 128 ≤ N := VTTY_START_eq ▸ h1
  have h2' : N < 2047 := VTTY_END_eq ▸ h2
  have hhi : (w >>> 8) &&& 255 = w >>> 8 := by
    rw [land255_eq_mod]
    exact Nat.mod_eq_of_lt (shiftRight8_lt w hw)
  have hlt : N - VTTY_START + 1 < VTTY_BYTES := by
    rw [VTTY_BYTES_eq, VTTY_START_eq]; omega
  have hsub : N + 1 - VTTY_START = N - VTTY_START + 1 := by
    rw [VTTY_START_eq]; omega
  obtain ⟨b1, b2, hwb1, hwb2, hrl, hrh⟩ := MemBlock.le_pair_write_ex m.mmio.vttyBuf
    (N - VTTY_START) w hlt
  have hA1' : 6144 ≤ a := USER_START_eq ▸ ha1
  have hA2' : a + 1 ≤ 61439 := USER_END_eq ▸ ha2
  have hulC : a - USER_START + 1 < USER_MEM_SIZE := by
    rw [USER_MEM_SIZE_eq, USER_START_eq]; omega
  have husub : a + 1 - USER_START = a - USER_START + 1 := by
    rw [USER_START_eq]; omega
  obtain ⟨u2, hu2, _, hur2, hur3⟩ := MemBlock.word_round_trip_ex m.user (a - USER_START) w hulC hw
  refine ⟨?_, ?_, ?_, ?_⟩
  · rw [Memory.writeS16_mmio m N w (by omega),
      Mmio.writeS16_vtty m.mmio N w h1' (by omega), hwb1]
    simp only [Option.some_bind]
    rw [hwb2]
    simp only [Option.map_some', Option.some_bind]
    rw [Memory.readU8_mmio _ N (by omega), Mmio.readU8_vtty _ N h1' (by omega)]
    exact hrl
  · rw [Memory.writeS16_mmio m N w (by omega),
      Mmio.writeS16_vtty m.mmio N w h1' (by omega), hwb1]
    simp only [Option.some_bind]
    rw [hwb2]
    simp only [Option.map_some', Option.some_bind]
    rw [Memory.readU8_mmio _ (N + 1) (by omega), Mmio.readU8_vtty _ (N + 1) (by omega) (by omega),
      hsub, hhi]
    exact hrh
  · rw [Memory.writeS16_user m a w hA1' (by omega), hu2]
    simp only [Option.map_some', Option.some_bind]
    rw [Memory.readU8_user _ a hA1' (by omega)]
    exact hur2
  · rw [Memory.writeS16_user m a w hA1' (by omega), hu2]
    simp only [Option.map_some', Option.some_bind]
    rw [Memory.readU8_user _ (a + 1) (by omega) (by omega), husub]
    exact hur3

/-- C8 witness: the amended little-endian write evaluated at the first
VTTY address with the word 0xABCD, contrasted at the first user-RAM
address. -/
theorem vtty_word_write_little_endian_witness :
    (VTTY_START ≤ 128 ∧ 128 < VTTY_END ∧ 43981 < 65536 ∧
      USER_START ≤ 6200 ∧ 6200 + 1 ≤ USER_END) ∧
    (((memory0.writeS16 128 43981).bind fun m2 => m2.readU8 128) = some (43981 &&& 255) ∧
     ((memory0.writeS16 128 43981).bind fun m2 => m2.readU8 (128 + 1)) =
        some ((43981 >>> 8) &&& 255) ∧
     ((memory0.writeS16 6200 43981).bind fun m2 => m2.readU8 6200) =
        some ((43981 >>> 8) &&& 255) ∧
     ((memory0.writeS16 6200 43981).bind fun m2 => m2.readU8 (6200 + 1)) =
        some (43981 &&& 255)) :=
  ⟨⟨by decide, by decide, by decide, by decide, by decide⟩,
    vtty_word_write_little_endian memory0 128 43981 6200 (by decide) (by decide) (by decide)
      (by decide) (by decide)⟩

/-- C3 witness: the amended round-trip evaluated at the first user-RAM
address with a word and a byte. -/
theorem word_write_read_round_trip_witness :
    (4660 < 65536 ∧ 18 < 256 ∧ (USER_START ≤ 6144 ∧ 6144 + 1 ≤ USER_END)) ∧
    (((memory0.writeS16 6144 4660).bind fun m2 => m2.readS16 6144) = some 4660 ∧
     ((memory0.writeS16 6144 4660).bind fun m2 => m2.readU8 6144) = some ((4660 >>> 8) &&& 255) ∧
     ((memory0.writeS16 6144 4660).bind fun m2 => m2.readU8 (6144 + 1)) = some (4660 &&& 255) ∧
     ((memory0.writeU8 6144 18).bind fun m2 => m2.readU8 6144) = some 18) :=
  ⟨⟨by decide, by decide, by decide⟩,
    word_write_read_round_trip memory0 6144 4660 18 (by decide) (by decide)
      (Or.inl ⟨by decide, by decide⟩)⟩

/-! C7: panics escaping `step`. -/

/-- `compute_offset` panics (its `expect` fires) exactly when the signed
sum leaves the 16-bit range. -/
theorem computeOffset_overflow (base : Nat) (off : Int)
    (h : (base : Int) + off < 0 ∨ 65536 ≤ (base : Int) + off) :
    computeOffset base off = none := by
  unfold computeOffset
  rw [if_neg (by omega)]

/-- CPU poised to execute `sw 1($t0), $t1` with `$t0 = 0xFFFF`, so the
effective address `0xFFFF + 1` overflows the 16-bit range. -/
def cpuC7 : Cpu := { cpu0 with regs := cpu0.regs.set .T0 65535 }

/-- C7 counterexample: a step is not free of panics — executing `SW` with
base register `0xFFFF` and offset `+1` aborts in
`compute_offset`'s `expect("no overflow")`, and executing `SB` targeting
MMIO address 0 (unmapped) aborts in `Mmio::write_u8`'s
`unimplemented!()`; neither failure is an error return. -/
theorem step_panic_counterexample :
    execInstr cpuC7 (.RRI .SW .T0 .T1 1) = .panic ∧
    execInstr cpu0 (.RRI .SB .Zero .T1 0) = .panic ∧
    ExecResult.panic ≠ ExecResult.err :=
  ⟨rfl, rfl, by simp⟩

/-- C7 (amended): failures inside a step are not all surfaced as error
returns: a base+offset effective address outside the 16-bit range makes
the store panic in `compute_offset`, and a store dispatched to an
unmapped MMIO address (here address 0) panics in `Mmio::write_u8`. -/
theorem step_panics_on_overflow_and_unmapped_mmio (c : Cpu) (rd rs : Reg) (imm : Nat)
    (hov : (c.regs.get rd : Int) + asI16 imm < 0 ∨
      65536 ≤ (c.regs.get rd : Int) + asI16 imm)
    (c2 : Cpu) (rd2 rs2 : Reg) (imm2 : Nat)
    (hbase : c2.regs.get rd2 = 0) (himm : asI16 imm2 = 0) :
    execInstr c (.RRI .SW rd rs imm) = .panic ∧
    execInstr c2 (.RRI .SB rd2 rs2 imm2) = .panic := by
  constructor
  · simp only [execInstr, Cpu.memWriteS16, computeOffset_overflow _ _ hov, Option.none_bind]
  · simp only [execInstr, Cpu.memWriteU8, hbase, himm]
    norm_num [computeOffset, Memory.writeU8, Mmio.writeU8, MMIO_END, MMIO_START, MMIO_SIZE,
      KIB, VTTY_START]

/-- CPU with `$t1 = 40000`, used with offset 30000 so the effective
address 70000 overflows the 16-bit range. -/
def cpuC7b : Cpu := { cpu0 with regs := cpu0.regs.set .T1 40000 }

/-- C7 witness: the amended panic behavior evaluated at a state with
`$t1 = 40000` and offset pattern 30000 (sum 70000 overflows), and at a
state storing to MMIO address 0. -/
theorem step_panics_witness :
    (((cpuC7b.regs.get .T1 : Int) + asI16 30000 < 0 ∨
        65536 ≤ (cpuC7b.regs.get .T1 : Int) + asI16 30000) ∧
      cpu0.regs.get .Zero = 0 ∧ asI16 0 = 0) ∧
    (execInstr cpuC7b (.RRI .SW .T1 .T0 30000) = .panic ∧
      execInstr cpu0 (.RRI .SB .Zero .T0 0) = .panic) :=
  ⟨⟨by decide, by decide, by decide⟩,
    step_panics_on_overflow_and_unmapped_mmio cpuC7b .T1 .T0 30000 (by decide)
      cpu0 .Zero .T0 0 (by decide) (by decide)⟩

/-! C10: shift-amount bounds. -/

/-- CPU poised to shift with `$t0 = 5` and shift amount `$t1 = 20`. -/
def cpuSh : Cpu := { cpu0 with regs := (cpu0.regs.set .T0 5).set .T1 20 }

/-- CPU poised to shift with `$t0 = 5` and shift amount `$t1 = 3`. -/
def cpuSh2 : Cpu := { cpu0 with regs := (cpu0.regs.set .T0 5).set .T1 3 }

/-- C10: `SHL`, `SHR` and `SHRA` produce a defined 16-bit result only for
shift amounts up to 15; a shift amount of 16 or more panics with a
shift overflow (the amount is not reduced modulo 16), while an amount
below 16 yields the shifted value and advances the PC. -/
theorem shift_amount_bounds (c : Cpu) (rd rs rt : Reg) :
    (16 ≤ c.regs.get rt →
      execInstr c (.RRR .SHL rd rs rt) = .panic ∧
      execInstr c (.RRR .SHR rd rs rt) = .panic ∧
      execInstr c (.RRR .SHRA rd rs rt) = .panic) ∧
    (c.regs.get rt < 16 → c.pc + 3 < 65536 →
      execInstr c (.RRR .SHL rd rs rt) =
        .ok { c with
          regs := c.regs.set rd ((c.regs.get rs <<< c.regs.get rt) % 65536),
          pc := c.pc + 3 } ∧
      execInstr c (.RRR .SHR rd rs rt) =
        .ok { c with
          regs := c.regs.set rd (c.regs.get rs >>> c.regs.get rt),
          pc := c.pc + 3 } ∧
      execInstr c (.RRR .SHRA rd rs rt) =
        .ok { c with
          regs := c.regs.set rd (toU16 (Int.fdiv (c.regs.getI rs) (2 ^ c.regs.get rt))),
          pc := c.pc + 3 }) := by
  have hshl : execInstr c (.RRR .SHL rd rs rt) =
      if c.regs.get rt < 16 then
        pcPlus { c with regs := c.regs.set rd ((c.regs.get rs <<< c.regs.get rt) % 65536) } 3
      else .panic := rfl
  have hshr : execInstr c (.RRR .SHR rd rs rt) =
      if c.regs.get rt < 16 then
        pcPlus { c with regs := c.regs.set rd (c.regs.get rs >>> c.regs.get rt) } 3
      else .panic := rfl
  have hshra : execInstr c (.RRR .SHRA rd rs rt) =
      if c.regs.get rt < 16 then
        pcPlus { c with
          regs := c.regs.set rd (toU16 (Int.fdiv (c.regs.getI rs) (2 ^ c.regs.get rt))) } 3
      else .panic := rfl
  constructor
  · intro h
    rw [hshl, hshr, hshra]
    refine ⟨?_, ?_, ?_⟩ <;> rw [if_neg (by omega)]
  · intro h hpc
    rw [hshl, hshr, hshra]
    refine ⟨?_, ?_, ?_⟩ <;>
      rw [if_pos h] <;>
      unfold pcPlus <;>
      dsimp only <;>
      rw [if_pos hpc]

/-- C10 witness: the shift bounds evaluated with shift amount 20
(panics) and with shift amount 3 (defined result, PC advanced by 3). -/
theorem shift_amount_bounds_witness :
    (16 ≤ cpuSh.regs.get .T1 ∧ execInstr cpuSh (.RRR .SHL .Rv .T0 .T1) = .panic) ∧
    (cpuSh2.regs.get .T1 < 16 ∧ cpuSh2.pc + 3 < 65536 ∧
      execInstr cpuSh2 (.RRR .SHL .Rv .T0 .T1) =
        .ok { cpuSh2 with
          regs := cpuSh2.regs.set .Rv ((cpuSh2.regs.get .T0 <<< cpuSh2.regs.get .T1) % 65536),
          pc := cpuSh2.pc + 3 }) :=
  ⟨⟨by decide, ((shift_amount_bounds cpuSh .Rv .T0 .T1).1 (by decide)).1⟩,
    ⟨by decide, by decide,
      ((shift_amount_bounds cpuSh2 .Rv .T0 .T1).2 (by decide) (by decide)).1⟩⟩

/-! C6: RI-shape instruction size. -/

/-- C6 counterexample: an RI-shape instruction (here `LI $t0, 7`) has
byte size 4, not 3 — the formula `ceil((6 + 4 + 16) / 8)` yields 4. -/
theorem ri_instr_size_is_four_not_three :
    (Instr.RI .LI .T0 7).instrSize = 4 ∧ (Instr.RI .LI .T0 7).instrSize ≠ 3 := by
  constructor
  · rfl
  · decide

/-- C6 (amended): every RI-shape instruction (JAL, BT, BF, LI) has byte
size 4, which equals `ceil((6 + operand_bits) / 8)` for operand bits
4 + 16, and executing the non-branch RI instruction `LI` advances the
program counter by exactly 4. -/
theorem ri_size_and_li_pc_advance (op : OpcodeRegImm) (r : Reg) (imm : Nat) (c : Cpu) (rd : Reg)
    (h : c.pc + 4 < 65536) :
    (Instr.RI op r imm).instrSize = 4 ∧
    (Instr.RI op r imm).instrSize = ceilDiv (6 + (4 + 16)) 8 ∧
    execInstr c (.RI .LI rd imm) =
      .ok { c with regs := c.regs.set rd (toU16 (asI16 imm)), pc := c.pc + 4 } := by
  refine ⟨rfl, rfl, ?_⟩
  have h1 : execInstr c (.RI .LI rd imm) =
      pcPlus { c with regs := c.regs.set rd (toU16 (asI16 imm)) } 4 := rfl
  rw [h1]
  unfold pcPlus
  dsimp only
  rw [if_pos h]

/-- C6 witness: the amended size and PC advance evaluated at `LI $t0, 7`
from the reset PC. -/
theorem ri_size_and_li_pc_advance_witness :
    cpu0.pc + 4 < 65536 ∧
    ((Instr.RI .LI .T0 7).instrSize = 4 ∧
     (Instr.RI .LI .T0 7).instrSize = ceilDiv (6 + (4 + 16)) 8 ∧
     execInstr cpu0 (.RI .LI .T0 7) =
       .ok { cpu0 with regs := cpu0.regs.set .T0 (toU16 (asI16 7)), pc := cpu0.pc + 4 }) :=
  ⟨by decide, ri_size_and_li_pc_advance .LI .T0 7 cpu0 .T0 (by decide)⟩

/-! C1: interrupt dispatch and KRET round trip. -/

/-- Reading `K0` immediately after writing it returns the stored 16-bit
pattern. -/
theorem RegisterFile.get_set_k0 (rf : RegisterFile) (v : Nat) :
    (rf.set .K0 v).get .K0 = v % 65536 := rfl

/-- C1: dispatching an interrupt disables interrupts, saves the
pre-dispatch `pc` in `K0` and jumps to the vector word `v`; executing
`KRET` immediately afterwards re-enables interrupts and restores the
pre-dispatch `pc` from `K0`. -/
theorem interrupt_dispatch_kret_round_trip (c : Cpu) (i : Interrupt) (v : Nat)
    (hpc : c.pc < 65536) (hv : c.mem.readS16 i.addr = some v) :
    ((sendInterrupt c i).map fun c1 => c1.interruptsEnabled) = some false ∧
    ((sendInterrupt c i).map fun c1 => c1.regs.get .K0) = some c.pc ∧
    ((sendInterrupt c i).map fun c1 => c1.pc) = some v ∧
    ((sendInterrupt c i).bind fun c1 =>
      match execInstr c1 (.O .KRET) with
      | .ok c2 => some (c2.interruptsEnabled, c2.pc)
      | _ => none) = some (true, c.pc) := by
  unfold sendInterrupt
  dsimp only
  rw [hv]
  simp only [Option.map_some', Option.some_bind]
  refine ⟨trivial, ?_, trivial, ?_⟩
  · rw [RegisterFile.get_set_k0]
    rw [Nat.mod_eq_of_lt hpc]
  · dsimp only [execInstr]
    rw [RegisterFile.get_set_k0, Nat.mod_eq_of_lt hpc]

/-- C1 witness: the dispatch/KRET round trip evaluated on a fresh CPU
with a zeroed vector table and the illegal-instruction interrupt. -/
theorem interrupt_dispatch_kret_round_trip_witness :
    (cpu0.pc < 65536 ∧ cpu0.mem.readS16 (Interrupt.addr .ILL_INSTR) = some 0) ∧
    (((sendInterrupt cpu0 .ILL_INSTR).map fun c1 => c1.interruptsEnabled) = some false ∧
     ((sendInterrupt cpu0 .ILL_INSTR).map fun c1 => c1.regs.get .K0) = some cpu0.pc ∧
     ((sendInterrupt cpu0 .ILL_INSTR).map fun c1 => c1.pc) = some 0 ∧
     ((sendInterrupt cpu0 .ILL_INSTR).bind fun c1 =>
        match execInstr c1 (.O .KRET) with
        | .ok c2 => some (c2.interruptsEnabled, c2.pc)
        | _ => none) = some (true, cpu0.pc)) :=
  ⟨⟨by decide, rfl⟩,
    interrupt_dispatch_kret_round_trip cpu0 .ILL_INSTR 0 (by decide) rfl⟩

end Lark
